import Mathlib

/-!
Verification of the rules-doctor repository check tool.

The tool audits GitHub repositories against file-content rules.  This file
gives a shallow embedding of the TypeScript sources:

  * `src/checker.ts`   : `RepositoryChecker` with `fetchFileContent`,
                         `runCheck`, `checkRepository`, `checkAllRepositories`
  * `src/index.ts`     : `getRepositories`, `getFailedRequires`,
                         `generateMarkdownReport`, `reportResults`, `main`
  * `src/types.ts`     : `FileCheck`, `ExcludeEntry`, `Config`, `CheckResult`

External collaborators (the `node-fetch` HTTP client and the JavaScript
`RegExp` engine) are modelled as explicit function parameters: a fetch
oracle `String → Except String Response` (error = the stringified rejection
value, as interpolated by a template literal) and a regex-compile oracle
`String → Except String (String → Bool)` (error = the message of the
`SyntaxError` thrown by `new RegExp`, ok = the compiled `test` predicate,
which searches anywhere in the content).

JavaScript string builtins (`includes`, `startsWith`, `slice`, `split`, the
default `sort` comparator) are modelled by executable character-list
functions below.  JavaScript strings compare by UTF-16 code unit while Lean
chars are code points; the two orders agree on strings of BMP characters,
which covers all check and repository names the tool handles.
-/

/-- Boolean prefix test on character lists. -/
def isPrefixB : List Char → List Char → Bool
  | [], _ => true
  | _ :: _, [] => false
  | a :: as, b :: bs => a == b && isPrefixB as bs

/-- Boolean substring (contiguous) test on character lists. -/
def isInfixB (pat : List Char) : List Char → Bool
  | [] => isPrefixB pat []
  | b :: bs => isPrefixB pat (b :: bs) || isInfixB pat bs

/-- Models the JavaScript builtin `s.includes(pat)`: substring search. -/
def strContains (s pat : String) : Bool :=
  isInfixB pat.data s.data

/-- Models the JavaScript builtin `s.startsWith(pre)`. -/
def strStartsWith (s pre : String) : Bool :=
  isPrefixB pre.data s.data

/-- Models the JavaScript builtin `s.slice(1)`: drop the first UTF-16 unit
(for the BMP character `!` this is exactly the first character). -/
def strSlice1 (s : String) : String :=
  ⟨s.data.drop 1⟩

/-- Splits a character list at every occurrence of `sep`; models the
JavaScript builtin `s.split(sep)` for a one-character separator. -/
def splitChars (sep : Char) : List Char → List (List Char)
  | [] => [[]]
  | c :: cs =>
    let rest := splitChars sep cs
    if c == sep then [] :: rest
    else
      match rest with
      | [] => [[c]]
      | r :: rs => (c :: r) :: rs

/-- Models the JavaScript builtin `s.split(sep)` for a one-character
separator string. -/
def strSplit (s : String) (sep : Char) : List String :=
  (splitChars sep s.data).map (fun l => ⟨l⟩)

/-- Lexicographic comparison of character lists by code point; models the
default JavaScript `Array.prototype.sort` string comparator (they agree on
BMP-only strings). -/
def chListLe : List Char → List Char → Bool
  | [], _ => true
  | _ :: _, [] => false
  | a :: as, b :: bs =>
    if a.val < b.val then true
    else if b.val < a.val then false
    else chListLe as bs

/-- String comparison used by the report's alphabetical grouping. -/
def strLe (a b : String) : Bool :=
  chListLe a.data b.data

/-- Insert a string into a sorted list of strings. -/
def insertSorted (x : String) : List String → List String
  | [] => [x]
  | y :: ys => if strLe x y then x :: y :: ys else y :: insertSorted x ys

/-- Insertion sort on strings; models `Array.prototype.sort()` with the
default comparator (keys are distinct when sorted, so stability is moot). -/
def sortStrings : List String → List String
  | [] => []
  | x :: xs => insertSorted x (sortStrings xs)

/-- Models an HTTP response as seen through `node-fetch`: the `ok` flag and
the text body. -/
structure Response where
  ok : Bool
  body : String
deriving DecidableEq

/-- From `src/types.ts` (`ExcludeEntry`): one entry of a check's `exclude`
list. -/
structure ExcludeEntry where
  repository : String
  reason : Option String
deriving DecidableEq

/-- From `src/types.ts` (`FileCheck`): a named rule pairing a file path with
a regex pattern; `enabled` and `exclude` are optional fields.  Note the
interface declares no `requires` field. -/
structure FileCheck where
  name : String
  file : String
  pattern : String
  description : Option String
  enabled : Option Bool
  exclude : Option (List ExcludeEntry)
deriving DecidableEq

/-- Shape of the entries `getFailedRequires` in `src/index.ts` filters:
a required check name plus an optional reason. -/
structure RequireEntry where
  check : String
  reason : Option String
deriving DecidableEq

/-- From `src/types.ts` (`CheckResult`).  The TypeScript interface declares
only the first five fields; the extra `requires` field models the runtime
property that `getFailedRequires` in `src/index.ts` reads from a result
object (`failure.requires`).  The checker constructs every result without
it, so it is `none` on every produced result — modelling the JavaScript
value `undefined`. -/
structure CheckResult where
  repository : String
  check : String
  filePath : String
  passed : Bool
  error : Option String
  requires : Option (List RequireEntry)
deriving DecidableEq

/-- From `src/types.ts` (`Config.dynamicRepositories`). -/
structure DynamicRepositories where
  enabled : Bool
  organization : String
  topic : String
deriving DecidableEq

/-- From `src/types.ts` (`Config`). -/
structure Config where
  repositories : Option (List String)
  dynamicRepositories : Option DynamicRepositories
  checks : List FileCheck

/-- The raw-content URL built in `fetchFileContent` (`src/checker.ts`). -/
def rawUrl (owner repoName branch filePath : String) : String :=
  "https://raw.githubusercontent.com/" ++ owner ++ "/" ++ repoName ++ "/" ++ branch ++ "/" ++ filePath

/-- From `src/checker.ts` (`fetchFileContent`): split the repository path on
`/` and take the first two segments (JavaScript array destructuring yields
`undefined`, i.e. falsy, for a missing segment; the model uses `""`, which
lands in the same falsy branch); reject when either is falsy.  Then try the
`main` branch; on a non-ok response try `master`; if that is also non-ok,
throw `File not found: <filePath>`.  The whole fetch logic sits inside a
`try` whose `catch` re-throws every failure, including the not-found error
just thrown, as `Failed to fetch <filePath>: <stringified error>`; a thrown
`Error` stringifies as `Error: <message>`, and the fetch oracle's error
string is already the stringified rejection value.  The invalid-format
throw happens before the `try` and is not wrapped. -/
def fetchFileContent (doFetch : String → Except String Response) (repoPath filePath : String) : Except String String :=
  let parts := strSplit repoPath '/'
  let owner := parts.getD 0 ""
  let repoName := parts.getD 1 ""
  if owner == "" || repoName == "" then
    Except.error ("Invalid repository format: " ++ repoPath ++ ". Expected \"owner/repo\"")
  else
    let attempt : Except String String :=
      match doFetch (rawUrl owner repoName "main" filePath) with
      | Except.error e => Except.error e
      | Except.ok response =>
        if !response.ok then
          match doFetch (rawUrl owner repoName "master" filePath) with
          | Except.error e => Except.error e
          | Except.ok masterResponse =>
            if !masterResponse.ok then
              Except.error ("Error: File not found: " ++ filePath)
            else
              Except.ok masterResponse.body
        else
          Except.ok response.body
    match attempt with
    | Except.ok content => Except.ok content
    | Except.error e => Except.error ("Failed to fetch " ++ filePath ++ ": " ++ e)

/-- From `src/checker.ts` (`runCheck`): strip a single leading `!` (negation
marker), compile the remainder with `new RegExp` (modelled by the compile
oracle; a malformed pattern is a thrown `SyntaxError`, surfaced here as
`Except.error`), test the content, and negate the outcome when the marker
was present. -/
def runCheck (reCompile : String → Except String (String → Bool)) (content : String) (check : FileCheck) : Except String Bool :=
  let isNegated := strStartsWith check.pattern "!"
  let pattern := if isNegated then strSlice1 check.pattern else check.pattern
  match reCompile pattern with
  | Except.error e => Except.error e
  | Except.ok test =>
    -- the source binds this as `matches`, a reserved word in Lean
    let found := test content
    Except.ok (if isNegated then !found else found)

/-- The body of the per-check loop in `checkRepository` (`src/checker.ts`):
fetch then evaluate inside a `try`; any thrown error becomes a result with
`passed = false` and `error` set to the error's message. -/
def evalCheck (doFetch : String → Except String Response) (reCompile : String → Except String (String → Bool)) (repoPath : String) (check : FileCheck) : CheckResult :=
  match fetchFileContent doFetch repoPath check.file with
  | Except.error msg =>
    { repository := repoPath, check := check.name, filePath := check.file,
      passed := false, error := some msg, requires := none }
  | Except.ok content =>
    match runCheck reCompile content check with
    | Except.error msg =>
      { repository := repoPath, check := check.name, filePath := check.file,
        passed := false, error := some msg, requires := none }
    | Except.ok passed =>
      { repository := repoPath, check := check.name, filePath := check.file,
        passed := passed, error := none, requires := none }

/-- From `src/checker.ts` (`checkRepository`): one result is pushed per
check, in the order of the input list. -/
def checkRepository (doFetch : String → Except String Response) (reCompile : String → Except String (String → Bool)) (repoPath : String) (checks : List FileCheck) : List CheckResult :=
  checks.map (evalCheck doFetch reCompile repoPath)

/-- From `src/checker.ts` (`checkAllRepositories`): `enabledChecks` is
computed exactly as in the source — and, exactly as in the source, used only
for the console log line; the loop passes the original, unfiltered `checks`
list to `checkRepository`. -/
def checkAllRepositories (doFetch : String → Except String Response) (reCompile : String → Except String (String → Bool)) (repositories : List String) (checks : List FileCheck) : List CheckResult :=
  let enabledChecks := checks.filter (fun check => check.enabled != some false)
  let _consoleHeader :=
    "Running " ++ toString enabledChecks.length ++ " checks across " ++ toString repositories.length ++ " repositories"
  repositories.flatMap (fun repo => checkRepository doFetch reCompile repo checks)

/-- From `src/index.ts` (`getFailedRequires`): read the `requires` property
of the failed result (always absent on results the checker produces), and
keep the entries whose required check has a result for the same repository
with `passed = false` (`find` returns the first match; a missing result is
falsy and keeps nothing). -/
def getFailedRequires (failure : CheckResult) (allResults : List CheckResult) : List RequireEntry :=
  match failure.requires with
  | none => []
  | some reqs =>
    if reqs.length = 0 then []
    else
      reqs.filter (fun req =>
        match allResults.find? (fun r => r.check == req.check && r.repository == failure.repository) with
        | some requiredCheckResult => !requiredCheckResult.passed
        | none => false)

/-- The status cell built per failure in `generateMarkdownReport`
(`src/index.ts`): classify the error text by an `includes` test for
`File not found`, then append the advisory `Fix first` links when
`getFailedRequires` is non-empty. -/
def failureStatus (failure : CheckResult) (allResults : List CheckResult) : String :=
  let base :=
    match failure.error with
    | some err =>
      if strContains err "File not found" then "🤷‍♂️ File not found"
      else "❌ " ++ err
    | none => "🔍 Pattern not found"
  let failedRequires := getFailedRequires failure allResults
  if failedRequires.length > 0 then
    let reqLinks :=
      String.intercalate ", " (failedRequires.map (fun req => "[`" ++ req.check ++ "`](#-" ++ req.check ++ ")"))
    base ++ " ⚠️ Fix first: " ++ reqLinks
  else base

/-- One row of a failure table in `generateMarkdownReport` (`src/index.ts`). -/
def markdownFailureLine (failure : CheckResult) (allResults : List CheckResult) : String :=
  let repoLink := "[" ++ failure.repository ++ "](https://github.com/" ++ failure.repository ++ ")"
  let fileLink := "[" ++ failure.filePath ++ "](https://github.com/" ++ failure.repository ++ "/blob/main/" ++ failure.filePath ++ ")"
  "| " ++ repoLink ++ " | " ++ fileLink ++ " | " ++ failureStatus failure allResults ++ " |"

/-- Key set of the record built by `reduce` with push in `src/index.ts`:
keys in first-insertion order (the value pushed under a key `k` is, in
order, exactly the sub-list of elements mapping to `k`). -/
def insertionOrderKeys (f : CheckResult → String) (l : List CheckResult) : List String :=
  l.foldl (fun acc r => if acc.contains (f r) then acc else acc ++ [f r]) []

/-- Keys of a grouping record after `Object.keys(...).sort()` in
`src/index.ts`. -/
def sortedKeys (f : CheckResult → String) (l : List CheckResult) : List String :=
  sortStrings (insertionOrderKeys f l)

/-- The grouping skeleton shared by `generateMarkdownReport` (lines 69–101)
and `reportResults` (lines 148–178) of `src/index.ts`: filter to failed
results, group them by check name (keys sorted), and inside each check
group by repository (keys sorted); the list under a key is the pushes made
during the single left-to-right `reduce` pass, i.e. the order-preserving
filter of the traversed list. -/
def groupedFailures (results : List CheckResult) : List (String × List (String × List CheckResult)) :=
  let failedResults := results.filter (fun r => !r.passed)
  (sortedKeys (fun r => r.check) failedResults).map (fun checkName =>
    let failures := failedResults.filter (fun r => r.check == checkName)
    (checkName,
      (sortedKeys (fun r => r.repository) failures).map (fun repo =>
        (repo, failures.filter (fun r => r.repository == repo)))))

/-- From `src/index.ts` (`getRepositories`): when dynamic resolution is
enabled the code calls `checker.fetchBazelContribRepositories()`, a method
`src/checker.ts` does not define — at runtime this throws a `TypeError`,
which `main`'s catch-all turns into exit code 1; the model surfaces it as
an error.  Otherwise the static list is returned verbatim when present
(a present empty array is truthy in JavaScript), else a configuration
error is thrown. -/
def getRepositoriesE (config : Config) : Except String (List String) :=
  match config.dynamicRepositories with
  | some dyn =>
    if dyn.enabled then
      Except.error "TypeError: checker.fetchBazelContribRepositories is not a function"
    else
      match config.repositories with
      | some repos => Except.ok repos
      | none => Except.error "No repositories configured. Either provide static repositories or enable dynamic repository fetching."
  | none =>
    match config.repositories with
    | some repos => Except.ok repos
    | none => Except.error "No repositories configured. Either provide static repositories or enable dynamic repository fetching."

/-- The check-filtering step of `main` (`src/index.ts`): with a truthy
positional argument, keep only the checks with that exact name and treat an
empty filter result as the fatal named-check-not-found error (the source
calls `process.exit(1)` there, before any evaluation); an absent or empty
(falsy) argument keeps the full list. -/
def filterChecksE (checks : List FileCheck) (arg : Option String) : Except String (List FileCheck) :=
  match arg with
  | some checkName =>
    if checkName == "" then Except.ok checks
    else
      let filtered := checks.filter (fun check => check.name == checkName)
      if filtered.length = 0 then
        Except.error ("Error: No check found with name " ++ checkName)
      else Except.ok filtered
  | none => Except.ok checks

/-- The exit-code logic of `main` (`src/index.ts`): resolve repositories,
filter checks by the optional positional argument, evaluate, and exit 1
exactly when some result failed (`results.some(r => !r.passed)`), else 0.
Any error on the way (configuration error, named check not found) exits 1
before evaluation.  Loading `config.json` and writing `report.md` are
external file-system effects outside the model (a failure of either also
exits 1 through the same catch-all). -/
def mainExitCode (doFetch : String → Except String Response) (reCompile : String → Except String (String → Bool)) (config : Config) (arg : Option String) : Nat :=
  match getRepositoriesE config with
  | Except.error _ => 1
  | Except.ok repositories =>
    match filterChecksE config.checks arg with
    | Except.error _ => 1
    | Except.ok checks =>
      let results := checkAllRepositories doFetch reCompile repositories checks
      if results.any (fun r => !r.passed) then 1 else 0

/-- Regex oracle for concrete runs: models the JavaScript `RegExp` engine on
pattern strings that contain no regex metacharacter (such as `MIT`, `a`,
`!a`, `x`, or the empty pattern), where `regex.test(content)` is exactly a
substring search and compilation always succeeds; `!` is not a regex
metacharacter, so a pattern like `!a` literally matches `!a`. -/
def litCompile : String → Except String (String → Bool) :=
  fun pattern => Except.ok (fun content => strContains content pattern)

/-- Standalone check used as a generic fixture: only the pattern varies. -/
def baseCheck (pattern : String) : FileCheck :=
  { name := "check", file := "FILE", pattern := pattern,
    description := none, enabled := none, exclude := none }

/-- The `has-license` check of the spec's scenarios. -/
def licenseCheck : FileCheck :=
  { name := "has-license", file := "LICENSE", pattern := "MIT",
    description := none, enabled := none, exclude := none }

/-- Fetch oracle: every URL answers with a non-ok (404-like) response. -/
def fetchAllNotOk : String → Except String Response :=
  fun _ => Except.ok { ok := false, body := "" }

/-- Fetch oracle: every request rejects at the transport level. -/
def fetchReject : String → Except String Response :=
  fun _ => Except.error "FetchError: network down"

/-- Fetch oracle: every URL answers ok with an MIT license body. -/
def fetchOkMIT : String → Except String Response :=
  fun _ => Except.ok { ok := true, body := "Copyright ... MIT License ..." }

/-- Fetch oracle: every URL answers ok with an empty body. -/
def fetchEmptyOk : String → Except String Response :=
  fun _ => Except.ok { ok := true, body := "" }

/-- Fetch oracle: the `main` branch of `acme/widgets` is absent and the
`master` branch serves the license file. -/
def fetchFallbackDemo : String → Except String Response :=
  fun url =>
    if url == rawUrl "acme" "widgets" "master" "LICENSE" then
      Except.ok { ok := true, body := "MIT License (from master)" }
    else
      Except.ok { ok := false, body := "" }

/-- Associativity of string concatenation, used to line up the wrapped
error messages. -/
theorem str_append_assoc (a b c : String) : a ++ b ++ c = a ++ (b ++ c) := by
  cases a; cases b; cases c
  exact congrArg String.mk (List.append_assoc _ _ _)

/-- C4 (counterexample): running the `has-license` check on `acme/widgets`
when both branch fetches answer non-success yields `passed = false`, but
the error string is the re-wrapped `Failed to fetch LICENSE: Error: File
not found: LICENSE` — not exactly `File not found: LICENSE` as claimed:
the `File not found` throw sits inside the `try` of `fetchFileContent`, so
its own `catch` wraps it before `checkRepository` records the message. -/
theorem fetch_notFound_exact_message_cex :
  (evalCheck fetchAllNotOk litCompile "acme/widgets" licenseCheck).passed = false ∧
  (evalCheck fetchAllNotOk litCompile "acme/widgets" licenseCheck).error =
    some "Failed to fetch LICENSE: Error: File not found: LICENSE" ∧
  (evalCheck fetchAllNotOk litCompile "acme/widgets" licenseCheck).error ≠
    some "File not found: LICENSE" := by
  refine ⟨rfl, rfl, ?_⟩
  decide

/-- C4 (amended): when the repository path splits into a truthy owner and
repo name and both the primary (`main`) and fallback (`master`) fetches
answer a non-success HTTP response, the emitted CheckResult has
`passed = false` and its error string is exactly
`Failed to fetch <filePath>: Error: File not found: <filePath>` — the
not-found message wrapped by the catch-all of `fetchFileContent`, which
contains `File not found: <filePath>` as a proper substring. -/
theorem evalCheck_bothBranchesNotOk (doFetch : String → Except String Response)
    (reCompile : String → Except String (String → Bool))
    (repoPath : String) (check : FileCheck)
    (owner repoName : String) (r1 r2 : Response)
    (hown : (strSplit repoPath '/').getD 0 "" = owner)
    (hrep : (strSplit repoPath '/').getD 1 "" = repoName)
    (hownt : (owner == "") = false) (hrept : (repoName == "") = false)
    (hmain : doFetch (rawUrl owner repoName "main" check.file) = Except.ok r1)
    (h1 : r1.ok = false)
    (hmaster : doFetch (rawUrl owner repoName "master" check.file) = Except.ok r2)
    (h2 : r2.ok = false) :
    evalCheck doFetch reCompile repoPath check =
      { repository := repoPath, check := check.name, filePath := check.file,
        passed := false,
        error := some ("Failed to fetch " ++ check.file ++ ": Error: File not found: " ++ check.file),
        requires := none } := by
  simp only [evalCheck, fetchFileContent, hown, hrep, hownt, hrept, hmain, h1, hmaster, h2,
    Bool.or_self, Bool.not_false, if_true, if_false, Bool.false_eq_true]
  have hlit : (": " ++ "Error: File not found: " : String) = ": Error: File not found: " := by decide
  simp only [str_append_assoc, ← str_append_assoc ": " "Error: File not found: " check.file, hlit]

/-- C4 (witness): the amended statement evaluated on the concrete
`acme/widgets` run where every URL answers non-success. -/
theorem evalCheck_bothBranchesNotOk_witness :
    evalCheck fetchAllNotOk litCompile "acme/widgets" licenseCheck =
      { repository := "acme/widgets", check := "has-license", filePath := "LICENSE",
        passed := false,
        error := some ("Failed to fetch " ++ "LICENSE" ++ ": Error: File not found: " ++ "LICENSE"),
        requires := none } :=
  evalCheck_bothBranchesNotOk fetchAllNotOk litCompile "acme/widgets" licenseCheck
    "acme" "widgets" { ok := false, body := "" } { ok := false, body := "" }
    (by decide) (by decide) (by decide) (by decide) rfl rfl rfl rfl

/-- C7: when the primary (`main`) branch fetch answers non-success and the
fallback (`master`) fetch succeeds, `fetchFileContent` returns the fallback
response body verbatim.  The fetch oracle is constrained only at the two
branch URLs and quantified over everything else, so no further request can
influence the outcome — there is no retry beyond the fallback. -/
theorem fetchFileContent_fallback (doFetch : String → Except String Response)
    (repoPath filePath : String) (owner repoName : String) (r1 r2 : Response)
    (hown : (strSplit repoPath '/').getD 0 "" = owner)
    (hrep : (strSplit repoPath '/').getD 1 "" = repoName)
    (hownt : (owner == "") = false) (hrept : (repoName == "") = false)
    (hmain : doFetch (rawUrl owner repoName "main" filePath) = Except.ok r1)
    (h1 : r1.ok = false)
    (hmaster : doFetch (rawUrl owner repoName "master" filePath) = Except.ok r2)
    (h2 : r2.ok = true) :
    fetchFileContent doFetch repoPath filePath = Except.ok r2.body := by
  simp only [fetchFileContent, hown, hrep, hownt, hrept, hmain, h1, hmaster, h2,
    Bool.or_self, Bool.not_false, Bool.not_true, if_true, if_false, Bool.false_eq_true]

/-- C7 (witness): the concrete fallback run on `acme/widgets`, whose `main`
branch is absent and whose `master` branch serves the license body. -/
theorem fetchFileContent_fallback_witness :
    fetchFileContent fetchFallbackDemo "acme/widgets" "LICENSE" =
      Except.ok "MIT License (from master)" :=
  fetchFileContent_fallback fetchFallbackDemo "acme/widgets" "LICENSE"
    "acme" "widgets" { ok := false, body := "" } { ok := true, body := "MIT License (from master)" }
    (by decide) (by decide) (by decide) (by decide) rfl rfl rfl rfl

/-- Prepending `!` to any string makes `startsWith "!"` true. -/
theorem strStartsWith_bang_append (X : String) : strStartsWith ("!" ++ X) "!" = true := by
  cases X
  simp [strStartsWith, isPrefixB]

/-- Dropping one character undoes prepending `!`. -/
theorem strSlice1_bang_append (X : String) : strSlice1 ("!" ++ X) = X := by
  cases X
  rfl

/-- The empty pattern is a substring of every string. -/
theorem isInfixB_nil (l : List Char) : isInfixB [] l = true := by
  cases l <;> simp [isInfixB, isPrefixB]

/-- Substring search with the empty needle always succeeds — the model of
the JavaScript fact that the empty regex matches every string. -/
theorem strContains_empty (s : String) : strContains s "" = true :=
  isInfixB_nil s.data

/-- C5 (counterexample): the claimed identity
`evaluate(content, "!X") == !evaluate(content, "X")` fails at the explicit
input `content = "!a"`, `X = "!a"` under the substring regex engine (`!` is
not a regex metacharacter, so `/!a/` literally matches `!a`): the left side
strips one `!` from `!!a`, tests `!a` against content `!a` (found) and
negates to `false`, while the right side strips the `!` of `!a`, tests `a`
(found) and double-negates to `true` — only a single leading `!` is ever
stripped. -/
theorem runCheck_negation_identity_cex :
    ¬ (runCheck litCompile "!a" (baseCheck ("!" ++ "!a")) =
        (runCheck litCompile "!a" (baseCheck "!a")).map (fun b => !b)) := by
  intro h
  have h1 : runCheck litCompile "!a" (baseCheck ("!" ++ "!a")) = Except.ok false := rfl
  have h2 : (runCheck litCompile "!a" (baseCheck "!a")).map (fun b => !b) =
      Except.ok true := rfl
  rw [h1, h2] at h
  simp at h

/-- C5 (amended): for a compiled pattern `X` (engine oracle `reCompile`,
search-anywhere test `test`): a check whose pattern is `X` with no leading
`!` evaluates to exactly the engine's test of the content; a check whose
pattern is `!X` evaluates to the negation of the engine's test of `X`; and
therefore `evaluate(content, "!X") = !evaluate(content, "X")` holds
whenever `X` itself does not start with `!` — only a single leading `!` is
stripped, so for `X` starting with `!` the identity can fail (see the
counterexample). -/
theorem runCheck_pattern_semantics (reCompile : String → Except String (String → Bool))
    (content X : String) (test : String → Bool)
    (hc : reCompile X = Except.ok test) :
    (∀ check : FileCheck, check.pattern = X → strStartsWith X "!" = false →
        runCheck reCompile content check = Except.ok (test content)) ∧
    (∀ check : FileCheck, check.pattern = "!" ++ X →
        runCheck reCompile content check = Except.ok (!(test content))) ∧
    (∀ check nck : FileCheck, check.pattern = "!" ++ X → nck.pattern = X →
        strStartsWith X "!" = false →
        runCheck reCompile content check =
          (runCheck reCompile content nck).map (fun b => !b)) := by
  refine ⟨?_, ?_, ?_⟩
  · intro check hpat hneg
    simp [runCheck, hpat, hneg, hc]
  · intro check hpat
    simp [runCheck, hpat, strStartsWith_bang_append, strSlice1_bang_append, hc]
  · intro check nck hpat hX hneg
    simp [runCheck, hpat, hX, hneg, strStartsWith_bang_append, strSlice1_bang_append, hc,
      Except.map]

/-- C5 (witness): the amended semantics on concrete inputs: pattern `MIT`
matches content `Copyright MIT`, and `!MIT` on the same content evaluates
to the negation. -/
theorem runCheck_pattern_semantics_witness :
    runCheck litCompile "Copyright MIT" (baseCheck "MIT") = Except.ok true ∧
    runCheck litCompile "Copyright MIT" (baseCheck "!MIT") = Except.ok false := by
  have h := runCheck_pattern_semantics litCompile "Copyright MIT" "MIT"
      (fun content => strContains content "MIT") rfl
  exact ⟨h.1 (baseCheck "MIT") rfl (by decide), h.2.1 (baseCheck "!MIT") rfl⟩

/-- C10: for any engine whose compiled empty regex matches every string
(the JavaScript behavior of `new RegExp("")`), a check with the bare
pattern `!` always evaluates to false — one leading `!` is stripped, the
empty regex matches, and the match is negated — and a check with the empty
pattern always evaluates to true. -/
theorem runCheck_bare_bang_and_empty (reCompile : String → Except String (String → Bool))
    (content : String) (t : String → Bool)
    (hc : reCompile "" = Except.ok t) (ht : ∀ s, t s = true) :
    (∀ check : FileCheck, check.pattern = "!" →
        runCheck reCompile content check = Except.ok false) ∧
    (∀ check : FileCheck, check.pattern = "" →
        runCheck reCompile content check = Except.ok true) := by
  constructor
  · intro check hpat
    have h1 : strStartsWith "!" "!" = true := rfl
    have h2 : strSlice1 "!" = "" := rfl
    simp [runCheck, hpat, h1, h2, hc, ht content]
  · intro check hpat
    have h1 : strStartsWith "" "!" = false := rfl
    simp [runCheck, hpat, h1, hc, ht content]

/-- C10 (witness): the statement instantiated on the substring engine and a
concrete content string. -/
theorem runCheck_bare_bang_and_empty_witness :
    runCheck litCompile "The quick brown fox" (baseCheck "!") = Except.ok false ∧
    runCheck litCompile "The quick brown fox" (baseCheck "") = Except.ok true := by
  have h := runCheck_bare_bang_and_empty litCompile "The quick brown fox"
      (fun content => strContains content "") rfl (fun s => strContains_empty s)
  exact ⟨h.1 (baseCheck "!") rfl, h.2 (baseCheck "") rfl⟩

/-- Regex oracle: models `new RegExp` on a malformed pattern, where
construction throws a `SyntaxError` whose message is recorded. -/
def reCompileBad : String → Except String (String → Bool) :=
  fun pattern => Except.error ("Invalid regular expression: /" ++ pattern ++ "/: Unterminated group")

/-- C6: `checkRepository` is total and per-check local: the output has
exactly one CheckResult per input check; the `i`-th output is the
evaluation of the `i`-th input check alone (so one check's failure cannot
affect another's result, and order is the input order); and whenever the
fetch or the regex construction fails for a check, that check's result has
`passed = false` and `error` set to the failure's message. -/
theorem checkRepository_spec (doFetch : String → Except String Response)
    (reCompile : String → Except String (String → Bool))
    (repoPath : String) (checks : List FileCheck) :
    ((checkRepository doFetch reCompile repoPath checks).length = checks.length) ∧
    (∀ i : Nat, (checkRepository doFetch reCompile repoPath checks)[i]? =
        (checks[i]?).map (evalCheck doFetch reCompile repoPath)) ∧
    (∀ check : FileCheck, ∀ msg : String,
        fetchFileContent doFetch repoPath check.file = Except.error msg →
        evalCheck doFetch reCompile repoPath check =
          { repository := repoPath, check := check.name, filePath := check.file,
            passed := false, error := some msg, requires := none }) ∧
    (∀ check : FileCheck, ∀ content msg : String,
        fetchFileContent doFetch repoPath check.file = Except.ok content →
        runCheck reCompile content check = Except.error msg →
        evalCheck doFetch reCompile repoPath check =
          { repository := repoPath, check := check.name, filePath := check.file,
            passed := false, error := some msg, requires := none }) := by
  refine ⟨?_, ?_, ?_, ?_⟩
  · simp [checkRepository]
  · intro i
    simp [checkRepository]
  · intro check msg h
    simp [evalCheck, h]
  · intro check content msg h1 h2
    simp [evalCheck, h1, h2]

/-- C6 (witness): a transport rejection turns into an errored result for
the first check without disturbing the second, and a malformed regex turns
into an errored result as well. -/
theorem checkRepository_spec_witness :
    ((checkRepository fetchReject litCompile "acme/widgets" [licenseCheck, baseCheck "x"]).length = 2) ∧
    ((checkRepository fetchReject litCompile "acme/widgets" [licenseCheck, baseCheck "x"])[1]? =
        some (evalCheck fetchReject litCompile "acme/widgets" (baseCheck "x"))) ∧
    (evalCheck fetchReject litCompile "acme/widgets" licenseCheck =
      { repository := "acme/widgets", check := "has-license", filePath := "LICENSE",
        passed := false, error := some "Failed to fetch LICENSE: FetchError: network down",
        requires := none }) ∧
    (evalCheck fetchOkMIT reCompileBad "acme/widgets" licenseCheck =
      { repository := "acme/widgets", check := "has-license", filePath := "LICENSE",
        passed := false, error := some "Invalid regular expression: /MIT/: Unterminated group",
        requires := none }) := by
  have h1 := checkRepository_spec fetchReject litCompile "acme/widgets" [licenseCheck, baseCheck "x"]
  have h2 := checkRepository_spec fetchOkMIT reCompileBad "acme/widgets" [licenseCheck]
  refine ⟨h1.1, ?_, ?_, ?_⟩
  · exact h1.2.1 1
  · exact h1.2.2.1 licenseCheck "Failed to fetch LICENSE: FetchError: network down" rfl
  · exact h2.2.2.2 licenseCheck "Copyright ... MIT License ..."
      "Invalid regular expression: /MIT/: Unterminated group" rfl rfl

/-- A check that is explicitly disabled in the configuration. -/
def disabledCheck : FileCheck :=
  { name := "disabled-check", file := "FILE", pattern := "MIT", description := none,
    enabled := some false, exclude := none }

/-- C1 (code bug): a run over one repository with one check whose `enabled`
field is false still emits a CheckResult carrying that check's name —
`checkAllRepositories` computes `enabledChecks` but passes the original,
unfiltered `checks` list to `checkRepository`, contradicting the comment on
`enabled` in `src/types.ts` (`When false, this check will be skipped`) and
its own console header, which counts only the enabled checks. -/
theorem disabled_check_still_evaluated :
    checkAllRepositories fetchOkMIT litCompile ["acme/widgets"] [disabledCheck] =
      [{ repository := "acme/widgets", check := "disabled-check", filePath := "FILE",
         passed := true, error := none, requires := none }] := by
  rfl

/-- A check that excludes the repository `acme/widgets`. -/
def excludedCheck : FileCheck :=
  { name := "excluded-check", file := "FILE", pattern := "MIT", description := none,
    enabled := none,
    exclude := some [{ repository := "acme/widgets", reason := some "not applicable" }] }

/-- C2 (code bug): a check listing `acme/widgets` in its `exclude` set is
still evaluated against `acme/widgets` and emits a CheckResult for that
pair — no code in the repository ever reads the `exclude` field,
contradicting its documentation in `src/types.ts` (`List of repositories to
skip for this check`). -/
theorem excluded_repository_still_evaluated :
    checkAllRepositories fetchOkMIT litCompile ["acme/widgets"] [excludedCheck] =
      [{ repository := "acme/widgets", check := "excluded-check", filePath := "FILE",
         passed := true, error := none, requires := none }] := by
  rfl

/-- Check `A` of the dependency scenario. -/
def checkA : FileCheck :=
  { name := "A", file := "A.txt", pattern := "MIT", description := none,
    enabled := none, exclude := none }

/-- Check `B` of the dependency scenario; the configuration document
declares `requires: [(check: A, reason: needs base config)]` for it, but
`FileCheck` (`src/types.ts`) has no `requires` field, so the declaration
never reaches the evaluation or the results. -/
def checkB : FileCheck :=
  { name := "B", file := "B.txt", pattern := "MIT", description := none,
    enabled := none, exclude := none }

/-- The result list of the dependency scenario: both A and B fail for
`octo/repo` (their files fetch fine but lack the pattern). -/
def resultsAB : List CheckResult :=
  checkAllRepositories fetchEmptyOk litCompile ["octo/repo"] [checkA, checkB]

/-- C3 (code bug): in the scenario where check B requires check A and both
fail for `octo/repo`, the rendered failure line for B carries no
`Fix first` reference to A: `getFailedRequires` (`src/index.ts`) reads
`failure.requires` from the CheckResult object, which the checker never
sets (and which the `CheckResult` interface does not even declare), so it
always returns the empty list and the `Fix first` rendering branch is
unreachable — contradicting the documented dependency annotation. -/
theorem fix_first_reference_never_rendered :
    resultsAB =
      [{ repository := "octo/repo", check := "A", filePath := "A.txt",
         passed := false, error := none, requires := none },
       { repository := "octo/repo", check := "B", filePath := "B.txt",
         passed := false, error := none, requires := none }] ∧
    getFailedRequires
      { repository := "octo/repo", check := "B", filePath := "B.txt",
        passed := false, error := none, requires := none } resultsAB = [] ∧
    strContains
      (failureStatus
        { repository := "octo/repo", check := "B", filePath := "B.txt",
          passed := false, error := none, requires := none } resultsAB)
      "Fix first" = false := by
  refine ⟨rfl, rfl, ?_⟩
  rfl

/-- Totality of the character-list comparison. -/
theorem chListLe_total (a : List Char) : ∀ b : List Char,
    chListLe a b = true ∨ chListLe b a = true := by
  induction a with
  | nil => intro b; left; rfl
  | cons x xs ih =>
    intro b
    cases b with
    | nil => right; rfl
    | cons y ys =>
      by_cases h1 : x.val < y.val
      · left; simp [chListLe, h1]
      · by_cases h2 : y.val < x.val
        · right; simp [chListLe, h2]
        · rcases ih ys with h | h
          · left; simp [chListLe, h1, h2, h]
          · right; simp [chListLe, h1, h2, h]

/-- Totality of the string comparison. -/
theorem strLe_total (a b : String) : strLe a b = true ∨ strLe b a = true :=
  chListLe_total a.data b.data

/-- The head of `insertSorted x l` is `x` or the head of `l`. -/
theorem insertSorted_headD (x : String) (l : List String) :
    (insertSorted x l).head? = some x ∨ (insertSorted x l).head? = l.head? := by
  cases l with
  | nil => left; rfl
  | cons y ys =>
    by_cases h : strLe x y = true
    · left; simp [insertSorted, h]
    · right; simp [insertSorted, h]

/-- Inserting into a list whose adjacent pairs are in order keeps adjacent
pairs in order. -/
theorem chain_insertSorted (x : String) (l : List String)
    (hl : List.Chain' (fun a b => strLe a b = true) l) :
    List.Chain' (fun a b => strLe a b = true) (insertSorted x l) := by
  induction l with
  | nil => simp [insertSorted]
  | cons y ys ih =>
    rcases List.chain'_cons'.mp hl with ⟨hhead, htail⟩
    by_cases h : strLe x y = true
    · rw [insertSorted, if_pos h]
      exact List.chain'_cons'.mpr ⟨fun b hb => by simp at hb; rw [← hb]; exact h, hl⟩
    · rw [insertSorted, if_neg h]
      have hyx : strLe y x = true := by
        rcases strLe_total x y with h1 | h1
        · exact absurd h1 h
        · exact h1
      refine List.chain'_cons'.mpr ⟨?_, ih htail⟩
      intro z hz
      rcases insertSorted_headD x ys with h' | h'
      · rw [h'] at hz
        simp at hz
        rw [← hz]; exact hyx
      · rw [h'] at hz
        exact hhead z hz
  
/-- The sort used for the report's group keys leaves every adjacent pair of
keys in order. -/
theorem chain_sortStrings (l : List String) :
    List.Chain' (fun a b => strLe a b = true) (sortStrings l) := by
  induction l with
  | nil => simp [sortStrings]
  | cons x xs ih => exact chain_insertSorted x _ ih

/-- Projecting the keys back out of a key-indexed pairing. -/
theorem map_fst_pairs {β : Type} (f : String → β) (l : List String) :
    (l.map (fun x => (x, f x))).map Prod.fst = l := by
  induction l with
  | nil => rfl
  | cons x xs ih => simp [ih]

/-- C8: in the grouped failure report, the check-name groups appear in
alphabetical order; inside each check group the repository groups appear in
alphabetical order; and the results inside one repository group are exactly
the order-preserving filter of the original result list (failed, this
check, this repository) — in particular a sublist of the original list, so
the original evaluation order is preserved. -/
theorem groupedFailures_spec (results : List CheckResult) :
    List.Chain' (fun a b => strLe a b = true) ((groupedFailures results).map Prod.fst) ∧
    (∀ g ∈ groupedFailures results,
        List.Chain' (fun a b => strLe a b = true) (g.2.map Prod.fst)) ∧
    (∀ g ∈ groupedFailures results, ∀ rg ∈ g.2,
        rg.2 = ((results.filter (fun r => !r.passed)).filter
            (fun r => r.check == g.1)).filter (fun r => r.repository == rg.1) ∧
        rg.2.Sublist results) := by
  refine ⟨?_, ?_, ?_⟩
  · simp only [groupedFailures]
    rw [map_fst_pairs]
    exact chain_sortStrings _
  · intro g hg
    simp only [groupedFailures] at hg
    rcases List.mem_map.mp hg with ⟨cn, _, rfl⟩
    dsimp only
    rw [map_fst_pairs]
    exact chain_sortStrings _
  · intro g hg rg hrg
    simp only [groupedFailures] at hg
    rcases List.mem_map.mp hg with ⟨cn, _, rfl⟩
    dsimp only at hrg ⊢
    rcases List.mem_map.mp hrg with ⟨repo, _, rfl⟩
    refine ⟨rfl, ?_⟩
    exact ((List.filter_sublist _).trans (List.filter_sublist _)).trans (List.filter_sublist _)

/-- Unsorted sample results: one passed result and failures across two
checks and two repositories, arriving out of alphabetical order. -/
def demoResults : List CheckResult :=
  [{ repository := "zeta/one", check := "b-check", filePath := "F",
     passed := false, error := none, requires := none },
   { repository := "alpha/two", check := "a-check", filePath := "F",
     passed := true, error := none, requires := none },
   { repository := "alpha/two", check := "b-check", filePath := "F",
     passed := false, error := none, requires := none }]

/-- The single check group the report builds for `demoResults`: repository
groups sorted alphabetically even though `zeta/one` failed first. -/
def demoGroupB : String × List (String × List CheckResult) :=
  ("b-check",
    [("alpha/two",
      [{ repository := "alpha/two", check := "b-check", filePath := "F",
         passed := false, error := none, requires := none }]),
     ("zeta/one",
      [{ repository := "zeta/one", check := "b-check", filePath := "F",
         passed := false, error := none, requires := none }])])

/-- C8 (witness): the grouping statement evaluated on `demoResults`. -/
theorem groupedFailures_spec_witness :
    List.Chain' (fun a b => strLe a b = true) ((groupedFailures demoResults).map Prod.fst) ∧
    List.Chain' (fun a b => strLe a b = true) (demoGroupB.2.map Prod.fst) ∧
    (demoGroupB.2.getD 0 ("", [])).2.Sublist demoResults := by
  have h := groupedFailures_spec demoResults
  have hg : demoGroupB ∈ groupedFailures demoResults := by decide
  have hrg : demoGroupB.2.getD 0 ("", []) ∈ demoGroupB.2 := by decide
  exact ⟨h.1, h.2.1 demoGroupB hg, (h.2.2 demoGroupB hg _ hrg).2⟩

/-- Characterization of the exit expression
`process.exit(hasFailures ? 1 : 0)` over a result list. -/
theorem exit_code_characterization (l : List CheckResult) :
    ((if l.any (fun r => !r.passed) then (1 : Nat) else 0) = 0 ↔ ∀ r ∈ l, r.passed = true) ∧
    ((if l.any (fun r => !r.passed) then (1 : Nat) else 0) = 1 ↔ ∃ r ∈ l, r.passed = false) := by
  by_cases h : l.any (fun r => !r.passed) = true
  · rw [if_pos h]
    simp only [List.any_eq_true, Bool.not_eq_true'] at h
    rcases h with ⟨r, hr, hrp⟩
    constructor
    · constructor
      · intro h0; exact absurd h0 (by decide)
      · intro hall; exact absurd (hall r hr) (by simp [hrp])
    · constructor
      · intro _; exact ⟨r, hr, hrp⟩
      · intro _; rfl
  · rw [if_neg h]
    have hall : ∀ r ∈ l, r.passed = true := by
      intro r hr
      by_contra hc
      exact h (List.any_eq_true.mpr ⟨r, hr, by simp [Bool.eq_false_iff.mpr hc]⟩)
    constructor
    · constructor
      · intro _; exact hall
      · intro _; rfl
    · constructor
      · intro h0; exact absurd h0 (by decide)
      · rintro ⟨r, hr, hrp⟩
        exact absurd (hall r hr) (by simp [hrp])

/-- C9: with a truthy positional argument naming no configured check,
`main` exits with code 1 — independently of the fetch and regex oracles,
i.e. before any evaluation can contribute; and whenever repository
resolution and check filtering succeed, the process exits 0 exactly when
every evaluated CheckResult passed and exits 1 exactly when some evaluated
CheckResult failed. -/
theorem mainExitCode_spec (doFetch : String → Except String Response)
    (reCompile : String → Except String (String → Bool)) (config : Config) :
    (∀ checkName : String, (checkName == "") = false →
        config.checks.filter (fun check => check.name == checkName) = [] →
        mainExitCode doFetch reCompile config (some checkName) = 1) ∧
    (∀ (arg : Option String) (repositories : List String) (checks : List FileCheck),
        getRepositoriesE config = Except.ok repositories →
        filterChecksE config.checks arg = Except.ok checks →
        ((mainExitCode doFetch reCompile config arg = 0) ↔
          (∀ r ∈ checkAllRepositories doFetch reCompile repositories checks, r.passed = true)) ∧
        ((mainExitCode doFetch reCompile config arg = 1) ↔
          (∃ r ∈ checkAllRepositories doFetch reCompile repositories checks, r.passed = false))) := by
  constructor
  · intro checkName hne hfilter
    unfold mainExitCode
    cases hrep : getRepositoriesE config with
    | error e => rfl
    | ok repositories =>
      simp [filterChecksE, hne, hfilter]
  · intro arg repositories checks h1 h2
    simp only [mainExitCode, h1, h2]
    exact exit_code_characterization _

/-- Configuration fixture with a static repository list and the single
`has-license` check. -/
def demoConfig : Config :=
  { repositories := some ["acme/widgets"], dynamicRepositories := none,
    checks := [licenseCheck] }

/-- C9 (witness): a missing named check exits 1; an all-pass run exits 0;
a run with a failure exits 1. -/
theorem mainExitCode_spec_witness :
    mainExitCode fetchOkMIT litCompile demoConfig (some "no-such-check") = 1 ∧
    mainExitCode fetchOkMIT litCompile demoConfig none = 0 ∧
    mainExitCode fetchAllNotOk litCompile demoConfig none = 1 := by
  have h1 := mainExitCode_spec fetchOkMIT litCompile demoConfig
  have h2 := mainExitCode_spec fetchAllNotOk litCompile demoConfig
  refine ⟨?_, ?_, ?_⟩
  · exact h1.1 "no-such-check" rfl rfl
  · exact (h1.2 none ["acme/widgets"] [licenseCheck] rfl rfl).1.mpr (by decide)
  · exact (h2.2 none ["acme/widgets"] [licenseCheck] rfl rfl).2.mpr
      ⟨{ repository := "acme/widgets", check := "has-license", filePath := "LICENSE",
         passed := false,
         error := some "Failed to fetch LICENSE: Error: File not found: LICENSE",
         requires := none }, by decide, rfl⟩
